import Mathlib

/-
Verification of docker-captain (a CLI managing Docker Compose projects).

Shallow embedding of the three source modules:
  - src/docker_captain/main.py   (command layer, startup, project discovery)
  - src/docker_captain/config.py (CaptainFile / CaptainConfig / CaptainData)
  - src/docker_captain/docker.py (DockerCompose wrapper around the compose tool)

Python strings are Lean Strings; Python string comparison, lower() and
startswith() are modelled on the codepoint lists (`String.data`), because
Python compares strings codepoint-wise.  Machine behaviour of the external
compose tool, of the filesystem and of the YAML library is abstracted into
explicit parameters or small data types, documented at each definition.
-/

/- ------------------------------------------------------------------ -/
/- Python string primitives                                            -/
/- ------------------------------------------------------------------ -/

/-- Codepoint-wise (lexicographic) comparison of two character lists; this is
how Python compares strings (`a <= b`). -/
def listCharLeb : List Char → List Char → Bool
  | [], _ => true
  | _ :: _, [] => false
  | a :: as, b :: bs =>
    if a.toNat < b.toNat then true
    else if b.toNat < a.toNat then false
    else listCharLeb as bs

theorem listCharLeb_cases (x y : Char) (xs ys : List Char)
    (h : listCharLeb (x :: xs) (y :: ys) = true) :
    x.toNat < y.toNat ∨ (x.toNat = y.toNat ∧ listCharLeb xs ys = true) := by
  simp only [listCharLeb] at h
  by_cases h1 : x.toNat < y.toNat
  · exact Or.inl h1
  · by_cases h2 : y.toNat < x.toNat
    · rw [if_neg h1, if_pos h2] at h; exact absurd h (by simp)
    · refine Or.inr ⟨by omega, ?_⟩
      rwa [if_neg h1, if_neg h2] at h

theorem listCharLeb_of_lt (x z : Char) (xs zs : List Char) (h : x.toNat < z.toNat) :
    listCharLeb (x :: xs) (z :: zs) = true := by
  simp [listCharLeb, h]

theorem listCharLeb_of_eq (x z : Char) (xs zs : List Char) (h : x.toNat = z.toNat)
    (hrest : listCharLeb xs zs = true) : listCharLeb (x :: xs) (z :: zs) = true := by
  simp only [listCharLeb]
  rw [if_neg (by omega), if_neg (by omega)]
  exact hrest

theorem listCharLeb_total (a : List Char) : ∀ b, listCharLeb a b = true ∨ listCharLeb b a = true := by
  induction a with
  | nil => intro b; left; rfl
  | cons x xs ih =>
    intro b
    cases b with
    | nil => right; rfl
    | cons y ys =>
      rcases Nat.lt_trichotomy x.toNat y.toNat with h | h | h
      · exact Or.inl (listCharLeb_of_lt x y xs ys h)
      · rcases ih ys with h2 | h2
        · exact Or.inl (listCharLeb_of_eq x y xs ys h h2)
        · exact Or.inr (listCharLeb_of_eq y x ys xs h.symm h2)
      · exact Or.inr (listCharLeb_of_lt y x ys xs h)

theorem listCharLeb_trans (a : List Char) :
    ∀ b c, listCharLeb a b = true → listCharLeb b c = true → listCharLeb a c = true := by
  induction a with
  | nil => intro b c _ _; rfl
  | cons x xs ih =>
    intro b c h1 h2
    match b, c with
    | [], _ => exact absurd h1 (by simp [listCharLeb])
    | _ :: _, [] => exact absurd h2 (by simp [listCharLeb])
    | y :: ys, z :: zs =>
      rcases listCharLeb_cases x y xs ys h1 with hxy | ⟨hxy, r1⟩
      · rcases listCharLeb_cases y z ys zs h2 with hyz | ⟨hyz, _⟩
        · exact listCharLeb_of_lt x z xs zs (lt_trans hxy hyz)
        · exact listCharLeb_of_lt x z xs zs (hyz ▸ hxy)
      · rcases listCharLeb_cases y z ys zs h2 with hyz | ⟨hyz, r2⟩
        · exact listCharLeb_of_lt x z xs zs (hxy ▸ hyz)
        · exact listCharLeb_of_eq x z xs zs (hxy.trans hyz) (ih ys zs r1 r2)

/-- Python string order, `a <= b`, as a Bool. -/
def strLeb (a b : String) : Bool := listCharLeb a.data b.data

/-- Python string order, as a Prop (used as the sorting relation). -/
def strLe (a b : String) : Prop := strLeb a b = true

instance : DecidableRel strLe := fun a b => inferInstanceAs (Decidable (strLeb a b = true))

instance : IsTotal String strLe := ⟨fun a b => listCharLeb_total a.data b.data⟩

instance : IsTrans String strLe := ⟨fun a b c h1 h2 => listCharLeb_trans a.data b.data c.data h1 h2⟩

/-- Python `sorted` on a list of strings (a stable sort; modelled by insertion
sort, which is extensionally the sorted permutation Python produces). -/
def sortStrings (l : List String) : List String := List.insertionSort strLe l

/-- Python `str.lower()` (codepoint-wise lowercasing; the statuses compared in
this program are ASCII). -/
def pyLower (s : String) : String := String.mk (s.data.map Char.toLower)

def listPre : List Char → List Char → Bool
  | [], _ => true
  | _ :: _, [] => false
  | a :: as, b :: bs => a == b && listPre as bs

/-- Python `s.startswith(pre)`. -/
def pyStartsWith (s pre : String) : Bool := listPre pre.data s.data

/-- Python `a or b` on integers: keeps `a` when it is truthy (non-zero). -/
def pyOr (a b : Int) : Int := if a = 0 then b else a

/-- First non-zero element of a list of integers, 0 when there is none
(the spec's description of the `rally`/`abandon` exit-code fold). -/
def firstNonZero : List Int → Int
  | [] => 0
  | x :: xs => if x = 0 then firstNonZero xs else x

theorem pyOr_assoc (a b c : Int) : pyOr (pyOr a b) c = pyOr a (pyOr b c) := by
  by_cases ha : a = 0 <;> by_cases hb : b = 0 <;> simp [pyOr, ha, hb]

theorem firstNonZero_cons (x : Int) (xs : List Int) :
    firstNonZero (x :: xs) = pyOr x (firstNonZero xs) := by
  by_cases hx : x = 0 <;> simp [firstNonZero, pyOr, hx]

theorem firstNonZero_ne_zero (l : List Int) (x : Int) (hx : x ∈ l) (hne : x ≠ 0) :
    firstNonZero l ≠ 0 := by
  induction l with
  | nil => cases hx
  | cons y ys ih =>
    by_cases hy : y = 0
    · simp only [firstNonZero, if_pos hy]
      rcases List.mem_cons.mp hx with h | h
      · exact absurd (h ▸ hy) hne
      · exact ih h
    · simp only [firstNonZero, if_neg hy]
      exact hy

/- ------------------------------------------------------------------ -/
/- Project discovery (main.py, discover_projects)                      -/
/- ------------------------------------------------------------------ -/

/-- An immediate child of the projects root: its basename, whether it is a
directory, and which candidate filenames exist in it as regular files
(`(child / fname).exists() and (child / fname).is_file()`). -/
structure DirEntry where
  name : String
  isDir : Bool
  hasComposeFile : String → Bool

/-- The projects root as `discover_projects` observes it: whether the root
exists, and its immediate children (in arbitrary on-disk order; the code
sorts them). -/
structure FS where
  rootExists : Bool
  entries : List DirEntry

/-- The recognized compose filenames, in precedence order (main.py). -/
def COMPOSE_FILENAMES : List String :=
  ["compose.yaml", "compose.yml", "docker-compose.yaml", "docker-compose.yml"]

def entryLe (a b : DirEntry) : Prop := strLe a.name b.name

instance : DecidableRel entryLe := fun a b => inferInstanceAs (Decidable (strLe a.name b.name))

instance : IsTotal DirEntry entryLe := ⟨fun a b => listCharLeb_total a.name.data b.name.data⟩

instance : IsTrans DirEntry entryLe :=
  ⟨fun a b c h1 h2 => listCharLeb_trans a.name.data b.name.data c.name.data h1 h2⟩

/-- `sorted(root.iterdir())`: children of one parent sort by basename. -/
def sortEntries (l : List DirEntry) : List DirEntry := List.insertionSort entryLe l

/-- Python dict assignment `projects[k] = v`: replaces in place when the key
is present, appends otherwise (insertion order preserved). -/
def dictInsert (m : List (String × String)) (k v : String) : List (String × String) :=
  if m.any (fun p => p.1 == k) then m.map (fun p => if p.1 == k then (k, v) else p)
  else m ++ [(k, v)]

/-- The body of the `for child in sorted(root.iterdir())` loop of
`discover_projects`: skip non-directories, take the first candidate filename
that exists (the inner `for`/`break`), store it under the child's basename.
Compose-file paths are represented relative to the root, `name/fname`. -/
def discoverLoop : List DirEntry → List (String × String) → List (String × String)
  | [], acc => acc
  | e :: rest, acc =>
    if e.isDir then
      match COMPOSE_FILENAMES.find? e.hasComposeFile with
      | some f => discoverLoop rest (dictInsert acc e.name (e.name ++ "/" ++ f))
      | none => discoverLoop rest acc
    else discoverLoop rest acc

/-- `discover_projects` (main.py): empty mapping when the root does not
exist, otherwise the loop over the sorted children. -/
def discover_projects (fs : FS) : List (String × String) :=
  if fs.rootExists then discoverLoop (sortEntries fs.entries) [] else []

/-- What the spec says one project contributes: directories only, mapped to
the first matching filename in the fixed precedence order. -/
def pickProject (e : DirEntry) : Option (String × String) :=
  if e.isDir then
    (COMPOSE_FILENAMES.find? e.hasComposeFile).map (fun f => (e.name, e.name ++ "/" ++ f))
  else none

/-- The spec's description of discovery: exactly the immediate subdirectories
containing a recognized compose file, in sorted order, each mapped to the
first precedence match; empty for a nonexistent root. -/
def discoverSpec (fs : FS) : List (String × String) :=
  if fs.rootExists then (sortEntries fs.entries).filterMap pickProject else []

theorem dictInsert_not_mem (m : List (String × String)) (k v : String)
    (h : k ∉ m.map Prod.fst) : dictInsert m k v = m ++ [(k, v)] := by
  have hany : m.any (fun p => p.1 == k) = false := by
    rw [List.any_eq_false]
    intro p hp
    simp only [beq_iff_eq]
    intro hk
    exact h (hk ▸ List.mem_map_of_mem Prod.fst hp)
  simp [dictInsert, hany]

theorem discoverLoop_eq (entries : List DirEntry) :
    ∀ acc : List (String × String),
      (∀ e ∈ entries, e.name ∉ acc.map Prod.fst) →
      ((entries.map DirEntry.name).Nodup) →
      discoverLoop entries acc = acc ++ entries.filterMap pickProject := by
  induction entries with
  | nil => intro acc _ _; simp [discoverLoop]
  | cons e rest ih =>
    intro acc hdisj hnd
    have hnd' : (rest.map DirEntry.name).Nodup := (List.nodup_cons.mp hnd).2
    have hememe : e.name ∉ rest.map DirEntry.name := (List.nodup_cons.mp hnd).1
    by_cases hdir : e.isDir
    · cases hf : COMPOSE_FILENAMES.find? e.hasComposeFile with
      | some f =>
        have hins : dictInsert acc e.name (e.name ++ "/" ++ f) = acc ++ [(e.name, e.name ++ "/" ++ f)] :=
          dictInsert_not_mem acc e.name _ (hdisj e (List.mem_cons_self e rest))
        have hdisj' : ∀ x ∈ rest, x.name ∉ (acc ++ [(e.name, e.name ++ "/" ++ f)]).map Prod.fst := by
          intro x hx
          rw [List.map_append]
          rw [List.mem_append]
          rintro (hcase | hcase)
          · exact hdisj x (List.mem_cons_of_mem e hx) hcase
          · simp only [List.map_cons, List.map_nil, List.mem_singleton] at hcase
            exact hememe (hcase ▸ List.mem_map_of_mem DirEntry.name hx)
        have hpick : pickProject e = some (e.name, e.name ++ "/" ++ f) := by
          simp [pickProject, hdir, hf]
        simp only [discoverLoop, if_pos hdir, hf, hins]
        rw [ih _ hdisj' hnd']
        simp [hpick, List.append_assoc]
      | none =>
        have hpick : pickProject e = none := by simp [pickProject, hdir, hf]
        simp only [discoverLoop, if_pos hdir, hf]
        rw [ih _ (fun x hx => hdisj x (List.mem_cons_of_mem e hx)) hnd']
        simp [hpick]
    · have hpick : pickProject e = none := by simp [pickProject, hdir]
      simp only [discoverLoop, if_neg hdir]
      rw [ih _ (fun x hx => hdisj x (List.mem_cons_of_mem e hx)) hnd']
      simp [hpick]

theorem pickProject_fst (e : DirEntry) (p : String × String) (h : pickProject e = some p) :
    p.1 = e.name := by
  simp only [pickProject] at h
  by_cases hdir : e.isDir
  · rw [if_pos hdir] at h
    cases hf : COMPOSE_FILENAMES.find? e.hasComposeFile with
    | some f => rw [hf] at h; simp only [Option.map_some'] at h; cases h; rfl
    | none => rw [hf] at h; simp at h
  · rw [if_neg hdir] at h; cases h

theorem map_fst_filterMap_pick (l : List DirEntry) :
    (l.filterMap pickProject).map Prod.fst
      = (l.filter (fun e => (pickProject e).isSome)).map DirEntry.name := by
  induction l with
  | nil => rfl
  | cons e rest ih =>
    cases hp : pickProject e with
    | some p =>
      have : p.1 = e.name := pickProject_fst e p hp
      simp [List.filterMap_cons, hp, List.filter_cons, ih, this]
    | none => simp [List.filterMap_cons, hp, List.filter_cons, ih]

theorem sorted_discoverSpec_names (fs : FS) :
    List.Sorted strLe ((discoverSpec fs).map Prod.fst) := by
  by_cases hroot : fs.rootExists
  · simp only [discoverSpec, if_pos hroot]
    rw [map_fst_filterMap_pick]
    have hsorted : List.Sorted entryLe (sortEntries fs.entries) :=
      List.sorted_insertionSort entryLe fs.entries
    have hfil : List.Sorted entryLe ((sortEntries fs.entries).filter (fun e => (pickProject e).isSome)) :=
      List.Pairwise.sublist (List.filter_sublist _) hsorted
    rw [List.Sorted, List.pairwise_map]
    exact hfil
  · simp [discoverSpec, hroot, List.Sorted]

/- ------------------------------------------------------------------ -/
/- Compose runner (docker.py, DockerCompose)                           -/
/- ------------------------------------------------------------------ -/

/-- Outcome of launching one external `docker compose` process.
`completed c` means the process ran and reported exit status `c` (the `sh`
library returns normally when `c = 0` and raises `ErrorReturnCode c`
otherwise); `launchFailure` means the tool could not be invoked at all
(`sh` raises some other exception). -/
inductive RunOutcome where
  | completed (code : Int)
  | launchFailure
deriving DecidableEq

/-- `DockerCompose._docker_compose_run` (docker.py): returns 0 on a normal
return, `int(e.exit_code)` on `ErrorReturnCode`, 1 on any other exception.
The function is total: no exception escapes it. -/
def docker_compose_run : RunOutcome → Int
  | .completed c => if c = 0 then 0 else c
  | .launchFailure => 1

/-- `DockerCompose.up` delegates to `_docker_compose_run` with action "up". -/
def DockerCompose.up (o : RunOutcome) : Int := docker_compose_run o

/-- `DockerCompose.down` delegates to `_docker_compose_run` with action "down". -/
def DockerCompose.down (o : RunOutcome) : Int := docker_compose_run o

/-- `DockerCompose.restart` delegates to `_docker_compose_run` with action
"restart". -/
def DockerCompose.restart (o : RunOutcome) : Int := docker_compose_run o

/-- A JSON field value in one record of `docker compose ls --format json`
output: a string or JSON null (the value shapes this model covers). -/
inductive JVal where
  | str (s : String)
  | null
deriving DecidableEq

/-- One record of the `docker compose ls` JSON output: `item.get("Name")`
yields `none` when the key is absent, and `item.get("Status", "")` yields
`""` when absent. -/
structure LsItem where
  name : Option JVal
  status : Option JVal
deriving DecidableEq

/-- Python truthiness of `item.get("Name")`: a non-empty string. -/
def jTruthy : Option JVal → Bool
  | some (.str s) => !(s == "")
  | some .null => false
  | none => false

/-- `item.get("Status", "")` as a string, when evaluating it does not raise:
absent keys default to `""`. (A present null value raises instead — see
`collectRunning`.) -/
def statusOrEmpty : Option JVal → String
  | some (.str t) => t
  | some .null => ""
  | none => ""

/-- The loop body of `get_running_projects`: for each item, if the name is
truthy and `item.get("Status", "").lower().startswith("running")`, append the
name.  Evaluating `.lower()` on a present-but-null Status raises
AttributeError (`Except.error`); thanks to `and` short-circuiting this is
only reached when the name is truthy. -/
def collectRunning : List LsItem → Except Unit (List String)
  | [] => .ok []
  | i :: rest =>
    match i.name with
    | some (.str s) =>
      if s == "" then collectRunning rest
      else
        match i.status with
        | some .null => .error ()
        | some (.str t) =>
          if pyStartsWith (pyLower t) "running" then
            match collectRunning rest with
            | .ok l => .ok (s :: l)
            | .error e => .error e
          else collectRunning rest
        | none =>
          if pyStartsWith (pyLower "") "running" then
            match collectRunning rest with
            | .ok l => .ok (s :: l)
            | .error e => .error e
          else collectRunning rest
    | _ => collectRunning rest

/-- `DockerCompose.get_running_projects` (docker.py).  The argument is the
parsed response: `Except.error` models a failure before the loop (tool
missing, non-zero beyond the ok-codes, `json.loads` failure); the whole loop
runs inside the same `try`, so an item that raises also yields `[]` with a
warning.  Never raises. -/
def get_running_projects (resp : Except Unit (List LsItem)) : List String :=
  match resp with
  | .error _ => []
  | .ok items =>
    match collectRunning items with
    | .ok l => l
    | .error _ => []

/-- What the code keeps of an item when no exception occurs: a non-empty
name whose status string (empty when absent) starts with "running"
case-insensitively. -/
def pickRunning (i : LsItem) : Option String :=
  match i.name with
  | some (.str s) =>
    if s == "" then none
    else if pyStartsWith (pyLower (statusOrEmpty i.status)) "running" then some s
    else none
  | _ => none

/-- Modelled from the spec's words, for comparison with the code: "returns
names whose status begins with running (case-insensitive match)" — every
reported name whose reported status string starts with "running". -/
def specReportedRunningNames (items : List LsItem) : List String :=
  items.filterMap (fun i =>
    match i.name, i.status with
    | some (.str s), some (.str t) =>
      if pyStartsWith (pyLower t) "running" then some s else none
    | _, _ => none)

/- ------------------------------------------------------------------ -/
/- Config store (config.py, CaptainFile / CaptainConfig / CaptainData) -/
/- ------------------------------------------------------------------ -/

/-- A Python exception, as surfaced by the embedded functions. -/
inductive PyExc where
  | attributeError (attr : String)
  | typeError
  | keyError (k : String)
deriving DecidableEq

/-- A scalar Python/YAML value.  `pathS` is a `pathlib.Path` object (the
declared element type of `CaptainConfig.recent_files`); it is *not*
representable by `yaml.safe_dump`. -/
inductive PyScalar where
  | nullS
  | boolS (b : Bool)
  | strS (s : String)
  | pathS (p : String)
deriving DecidableEq

/-- A Python/YAML value as stored in a record field or mapping value: a
scalar or a flat list of scalars (the shapes this program produces and the
model covers). -/
inductive PyTerm where
  | scalar (x : PyScalar)
  | listT (l : List PyScalar)
deriving DecidableEq

/-- A parsed YAML document: a top-level mapping with string keys, or any
other term (scalar/list). -/
inductive PyDoc where
  | term (t : PyTerm)
  | mapping (m : List (String × PyTerm))
deriving DecidableEq

/-- Python truthiness of a parsed YAML document (`data or {}`). -/
def pyTruthy : PyDoc → Bool
  | .term (.scalar .nullS) => false
  | .term (.scalar (.boolS b)) => b
  | .term (.scalar (.strS s)) => !(s == "")
  | .term (.scalar (.pathS _)) => true
  | .term (.listT l) => !l.isEmpty
  | .mapping m => !m.isEmpty

/-- Whether `yaml.safe_dump` can represent a scalar: it raises
RepresenterError on non-standard objects such as `pathlib.Path`. -/
def representableScalar : PyScalar → Bool
  | .pathS _ => false
  | _ => true

def representableTerm : PyTerm → Bool
  | .scalar x => representableScalar x
  | .listT l => l.all representableScalar

def representableDoc : PyDoc → Bool
  | .term t => representableTerm t
  | .mapping m => m.all (fun kv => representableTerm kv.2)

/-- The state of a record's YAML file as `load` observes it: absent,
unreadable/unparsable (open or `yaml.safe_load` raised), or parsed to a
document.  An empty file parses to null. -/
inductive FileState where
  | missing
  | unreadable
  | parsed (d : PyDoc)
deriving DecidableEq

/-- `CaptainConfig` (config.py): fields `theme` (default "light"),
`auto_update` (default True), `recent_files` (default []).  Field values are
dynamically typed in Python — `cls(**filtered)` stores whatever the YAML
file held — so fields are modelled as `PyTerm`. -/
structure CaptainConfig where
  theme : PyTerm := .scalar (.strS "light")
  auto_update : PyTerm := .scalar (.boolS true)
  recent_files : PyTerm := .listT []
deriving DecidableEq

/-- `CaptainData` (config.py): field `active_projects` (default []). -/
structure CaptainData where
  active_projects : PyTerm := .listT []
deriving DecidableEq

/-- `dataclasses.asdict` on a `CaptainConfig`: the fields in declaration
order (`Path` values are deep-copied unchanged). -/
def asdictConfig (c : CaptainConfig) : PyDoc :=
  .mapping [("theme", c.theme), ("auto_update", c.auto_update), ("recent_files", c.recent_files)]

/-- `dataclasses.asdict` on a `CaptainData`. -/
def asdictData (d : CaptainData) : PyDoc :=
  .mapping [("active_projects", d.active_projects)]

/-- `CaptainFile.save` (config.py), composed with what a later parse of the
written file sees.  The target is opened with mode "w" (truncated) before
dumping; `yaml.safe_dump` round-trips representable documents (the YAML
library is an external collaborator assumed faithful on them) and raises
RepresenterError on a `Path`, which `save` catches with a warning — leaving
the file empty, which parses to null. -/
def saveFile (d : PyDoc) : FileState :=
  if representableDoc d then .parsed d else .parsed (.term (.scalar .nullS))

def saveConfig (c : CaptainConfig) : FileState := saveFile (asdictConfig c)

def saveData (d : CaptainData) : FileState := saveFile (asdictData d)

/-- Python dict lookup for a dict built from an association list left to
right (later duplicate keys overwrite earlier ones), as `yaml.safe_load`
builds mappings. -/
def pyDictGet (k : String) (m : List (String × PyTerm)) : Option PyTerm :=
  m.reverse.lookup k

/-- The dataclass field names of `CaptainConfig`. -/
def configFieldNames : List String := ["theme", "auto_update", "recent_files"]

/-- The dataclass field names of `CaptainData`. -/
def dataFieldNames : List String := ["active_projects"]

/-- `kv` is a recognized `CaptainConfig` field (the filter in `load`). -/
def isConfigField (kv : String × PyTerm) : Bool := kv.1 ∈ configFieldNames

/-- `kv` is a recognized `CaptainData` field. -/
def isDataField (kv : String × PyTerm) : Bool := kv.1 ∈ dataFieldNames

/-- `CaptainFile.load` for `CaptainConfig` (config.py): a missing file gives
a default record; an unreadable/unparsable file gives a warning and a
default record; otherwise `data = yaml.safe_load(f) or {}` is filtered to
the recognized field names and passed to the constructor, with defaults for
missing keys.  `data.items()` sits *outside* the try block: on a truthy
non-mapping document it raises AttributeError (`Except.error`). -/
def loadConfig : FileState → Except PyExc CaptainConfig
  | .missing => .ok {}
  | .unreadable => .ok {}
  | .parsed d =>
    let data := if pyTruthy d then d else .mapping []
    match data with
    | .mapping m =>
      let filtered := m.filter isConfigField
      .ok { theme := (pyDictGet "theme" filtered).getD (.scalar (.strS "light")),
            auto_update := (pyDictGet "auto_update" filtered).getD (.scalar (.boolS true)),
            recent_files := (pyDictGet "recent_files" filtered).getD (.listT []) }
    | .term _ => .error (.attributeError "items")

/-- `CaptainFile.load` for `CaptainData` (config.py); same contract as
`loadConfig`. -/
def loadData : FileState → Except PyExc CaptainData
  | .missing => .ok {}
  | .unreadable => .ok {}
  | .parsed d =>
    let data := if pyTruthy d then d else .mapping []
    match data with
    | .mapping m =>
      let filtered := m.filter isDataField
      .ok { active_projects := (pyDictGet "active_projects" filtered).getD (.listT []) }
    | .term _ => .error (.attributeError "items")

/- ------------------------------------------------------------------ -/
/- Startup (main.py, module level, lines 32-50)                        -/
/- ------------------------------------------------------------------ -/

/-- A Python attribute value, for modelling attribute lookup on
`CaptainConfig` and its instances. -/
inductive PyAttr where
  | strA (s : String)
  | boolA (b : Bool)
  | listA (l : List String)
  | pathA (p : String)
  | dictA (m : List (String × String))
deriving DecidableEq

/-- The data attributes `CaptainConfig` actually defines in config.py:
`DEFAULT_PATH` plus the three dataclass fields.  Method attributes (`load`,
`save`, `_ensure_dataclass`) are omitted — the startup code only reads data
attributes.  Notably there is *no* `ENVIROMENT` and *no* `projects_folder`. -/
def captainConfigClassAttrs : List (String × PyAttr) :=
  [("DEFAULT_PATH", .pathA "<user-config-dir>/docker-captain/config.yaml"),
   ("theme", .strA "light"),
   ("auto_update", .boolA true),
   ("recent_files", .listA [])]

/-- Python `getattr` on the `CaptainConfig` class (an instance falls back to
the same table: dataclass instances carry exactly the declared fields). -/
def getattrCaptainConfig (attr : String) : Except PyExc PyAttr :=
  match captainConfigClassAttrs.lookup attr with
  | some v => .ok v
  | none => .error (.attributeError attr)

/-- Lines 33-35 of main.py:
`os.getenv(CaptainConfig.ENVIROMENT["projects_folder"]) or captain_config.projects_folder`.
Evaluation order: the class attribute `ENVIROMENT` first, then its
`"projects_folder"` key, then `os.getenv`, then — when the environment value
is falsy — the instance attribute `projects_folder`. -/
def startupResolveProjectsFolder (env : String → Option String) : Except PyExc (Option String) := do
  let envAttr ← getattrCaptainConfig "ENVIROMENT"
  let m ← match envAttr with
    | .dictA m => Except.ok m
    | _ => Except.error PyExc.typeError
  let envVarName ← match m.lookup "projects_folder" with
    | some s => Except.ok s
    | none => Except.error (PyExc.keyError "projects_folder")
  match env envVarName with
  | some v =>
    if v == "" then
      do
        let cfgAttr ← getattrCaptainConfig "projects_folder"
        match cfgAttr with
        | .strA s => return some s
        | _ => return none
    else return some v
  | none =>
    do
      let cfgAttr ← getattrCaptainConfig "projects_folder"
      match cfgAttr with
      | .strA s => return some s
      | _ => return none

/-- Lines 32-50 of main.py: resolve the projects folder, then exit 1 when it
is unset/falsy, exit 2 when the path does not exist on disk; `none` means
startup proceeds to the commands.  `Except.error` models an uncaught Python
exception terminating the process with a traceback. -/
def startupExitDecision (env : String → Option String) (pathExists : String → Bool) :
    Except PyExc (Option Int) := do
  let folder ← startupResolveProjectsFolder env
  match folder with
  | none => return some 1
  | some f =>
    if f == "" then return some 1
    else if pathExists f then return none
    else return some 2

/- ------------------------------------------------------------------ -/
/- Command layer (main.py, commands)                                   -/
/- ------------------------------------------------------------------ -/

/-- An observable side effect of a command on the persisted data record or
the terminal prompt: loading the data file (`CaptainData.load()`), showing
the interactive checkbox, or saving the data file with the given
active-project list. -/
inductive CmdEvent where
  | loadData
  | prompt
  | saveData (active : List String)
deriving DecidableEq

/-- The observable result of one command invocation: the process exit code,
the persisted active-project list after the command, the external compose
invocations performed (by project name, in order), the console messages the
command layer prints (rich markup stripped), and the data-record events. -/
structure CmdResult where
  exit : Int
  store : List String
  invocations : List String
  messages : List String
  trace : List CmdEvent
deriving DecidableEq

/-- `project in projects` / `projects[project]` on the discovered mapping. -/
def lookupProj (projects : List (String × String)) (name : String) : Option String :=
  (projects.find? (fun p => p.1 == name)).map (fun p => p.2)

/-- The skip warning `rally`/`abandon` print for an active name that was not
discovered. -/
def skipMsg (n : String) : String := "Skipping " ++ n ++ ": project not found."

/-- The loop shared by `rally` and `abandon` (main.py): iterate the stored
active list; a missing name records `exit_code = exit_code or 1` and
continues; a present name runs the compose action and records
`exit_code = exit_code or rc`.  Returns (exit code, invoked names, skip
messages).  `result n` is the runner's exit code for project `n`. -/
def rallyLoop (projects : List (String × String)) (result : String → Int) :
    List String → Int → Int × List String × List String
  | [], ec => (ec, [], [])
  | n :: rest, ec =>
    match lookupProj projects n with
    | none =>
      let r := rallyLoop projects result rest (pyOr ec 1)
      (r.1, r.2.1, skipMsg n :: r.2.2)
    | some _ =>
      let r := rallyLoop projects result rest (pyOr ec (result n))
      (r.1, n :: r.2.1, r.2.2)

/-- The hint `rally`/`abandon` print when no project is active. -/
def noActiveMsg : String :=
  "No active projects found. Run docker-captain manage first."

/-- `rally` (main.py): load the data record; on an empty active list print a
hint and exit 0 without invoking anything; otherwise run the loop with
`DockerCompose.up` and exit with the folded code.  The persisted list is
never written. -/
def rallyCmd (projects : List (String × String)) (store : List String)
    (upResult : String → Int) : CmdResult :=
  if store.isEmpty then
    ⟨0, store, [], [noActiveMsg], [.loadData]⟩
  else
    let r := rallyLoop projects upResult store 0
    ⟨r.1, store, r.2.1, r.2.2, [.loadData]⟩

/-- `abandon` (main.py): identical to `rally` with `DockerCompose.down`. -/
def abandonCmd (projects : List (String × String)) (store : List String)
    (downResult : String → Int) : CmdResult :=
  if store.isEmpty then
    ⟨0, store, [], [noActiveMsg], [.loadData]⟩
  else
    let r := rallyLoop projects downResult store 0
    ⟨r.1, store, r.2.1, r.2.2, [.loadData]⟩

/-- `start <project>` (main.py): `_require_project_exists` prints
"No such project: <name>" and exits 2 when the name was not discovered;
otherwise run `docker compose up` on it and exit with the runner's code.
Never loads or saves the data record. -/
def startCmd (project : String) (projects : List (String × String))
    (upResult : String → Int) (store : List String) : CmdResult :=
  match lookupProj projects project with
  | none => ⟨2, store, [], ["No such project: " ++ project], []⟩
  | some _ => ⟨upResult project, store, [project], [], []⟩

/-- `stop <project>` (main.py): same shape as `start`, running `down`. -/
def stopCmd (project : String) (projects : List (String × String))
    (downResult : String → Int) (store : List String) : CmdResult :=
  match lookupProj projects project with
  | none => ⟨2, store, [], ["No such project: " ++ project], []⟩
  | some _ => ⟨downResult project, store, [project], [], []⟩

/-- `restart <project>` (main.py): same shape as `start`, running `restart`. -/
def restartCmd (project : String) (projects : List (String × String))
    (restartResult : String → Int) (store : List String) : CmdResult :=
  match lookupProj projects project with
  | none => ⟨2, store, [], ["No such project: " ++ project], []⟩
  | some _ => ⟨restartResult project, store, [project], [], []⟩

/-- `list` (main.py): discovers, loads the data record, queries running
projects and renders a table (rendering not modelled); exits 0 and changes
nothing. -/
def listCmd (projects : List (String × String)) (store : List String)
    (running : List String) : CmdResult :=
  ⟨0, store, [], [], [.loadData]⟩

/-- `manage` (main.py): discover, sort the names, *load the data record*,
then — if no project was discovered — print a notice and exit 1; otherwise
prompt.  A cancelled prompt (`answer is None`) prints "Aborted" and exits 0
with no changes; a confirmed selection is stored as `sorted(answer)` and
saved, exiting 0.  `answer` is the checkbox result. -/
def manageCmd (folder : String) (projects : List (String × String))
    (store : List String) (answer : Option (List String)) : CmdResult :=
  let names := sortStrings (projects.map (fun p => p.1))
  if names.isEmpty then
    ⟨1, store, [], ["No projects found in " ++ folder ++ "."], [.loadData]⟩
  else
    match answer with
    | none => ⟨0, store, [], ["Aborted (no changes made)."], [.loadData, .prompt]⟩
    | some sel =>
      ⟨0, sortStrings sel, [],
        ["Saved " ++ toString (sortStrings sel).length ++ " active project(s)."],
        [.loadData, .prompt, .saveData (sortStrings sel)]⟩

/-- Whether an active name is present among the discovered projects. -/
def presentIn (projects : List (String × String)) (n : String) : Bool :=
  (lookupProj projects n).isSome

/-- The per-project result the spec attributes to one active name: the
runner's exit code when the name was discovered, 1 (the recorded skip
failure) when it was not. -/
def perResult (projects : List (String × String)) (result : String → Int) (n : String) : Int :=
  if presentIn projects n then result n else 1

theorem rallyLoop_spec (projects : List (String × String)) (result : String → Int) :
    ∀ (active : List String) (ec : Int),
      rallyLoop projects result active ec =
        (pyOr ec (firstNonZero (active.map (perResult projects result))),
         active.filter (presentIn projects),
         (active.filter (fun n => !(presentIn projects n))).map skipMsg) := by
  intro active
  induction active with
  | nil =>
    intro ec
    by_cases h : ec = 0 <;> simp [rallyLoop, firstNonZero, pyOr, h]
  | cons n rest ih =>
    intro ec
    cases hl : lookupProj projects n with
    | none =>
      have hpres : presentIn projects n = false := by simp [presentIn, hl]
      have hper : perResult projects result n = 1 := by simp [perResult, hpres]
      simp only [rallyLoop, hl]
      rw [ih]
      simp [hper, firstNonZero_cons, hpres, pyOr_assoc, List.filter_cons]
    | some path =>
      have hpres : presentIn projects n = true := by simp [presentIn, hl]
      have hper : perResult projects result n = result n := by simp [perResult, hpres]
      simp only [rallyLoop, hl]
      rw [ih]
      simp [hper, firstNonZero_cons, hpres, pyOr_assoc, List.filter_cons]

/- ------------------------------------------------------------------ -/
/- Claims                                                              -/
/- ------------------------------------------------------------------ -/

/-- Claim C6: for every `up`/`down`/`restart` invocation of the compose
runner, the returned exit code is 0 when the external process succeeds,
equals the process's own reported exit code when it completes with non-zero
status, and is 1 when the external tool could not be invoked at all; the
runner is a total function, so nothing ever propagates past its boundary. -/
theorem c6_runner_exit_codes :
    ∀ c : Int,
      DockerCompose.up (.completed c) = c
      ∧ DockerCompose.down (.completed c) = c
      ∧ DockerCompose.restart (.completed c) = c
      ∧ DockerCompose.up .launchFailure = 1
      ∧ DockerCompose.down .launchFailure = 1
      ∧ DockerCompose.restart .launchFailure = 1 := by
  intro c
  refine ⟨?_, ?_, ?_, rfl, rfl, rfl⟩ <;>
    · show docker_compose_run (.completed c) = c
      by_cases h : c = 0 <;> simp [docker_compose_run, h]

/-- Claim C3 (code bug): for every environment and every filesystem, the
startup sequence of main.py raises AttributeError while evaluating
`CaptainConfig.ENVIROMENT["projects_folder"]` — config.py's `CaptainConfig`
defines no `ENVIROMENT` attribute (nor a `projects_folder` field) — so the
exit-1 (folder unset) and exit-2 (folder nonexistent) checks the claim
describes are never reached. -/
theorem c3_startup_attribute_error :
    ∀ (env : String → Option String) (pathExists : String → Bool),
      startupExitDecision env pathExists = .error (.attributeError "ENVIROMENT") := by
  intro env pathExists
  rfl

/-- Claim C1: the exit code of `rally` (and `abandon`) is the first non-zero
per-project result in stored active-set order — 1 for a name absent from
discovery, the runner's code for a present one — or 0 when all succeed; the
projects invoked are exactly the present ones, in order, regardless of
earlier failures; an absent name yields a skip warning and forces a non-zero
exit; an empty active-set performs no invocation and exits 0. -/
theorem c1_rally_abandon_exit_codes :
    ∀ (projects : List (String × String)) (store : List String) (upR downR : String → Int),
      ((rallyCmd projects store upR).exit = firstNonZero (store.map (perResult projects upR)))
      ∧ ((abandonCmd projects store downR).exit = firstNonZero (store.map (perResult projects downR)))
      ∧ ((rallyCmd projects store upR).invocations = store.filter (presentIn projects))
      ∧ ((abandonCmd projects store downR).invocations = store.filter (presentIn projects))
      ∧ (store = [] →
          rallyCmd projects store upR = ⟨0, [], [], [noActiveMsg], [.loadData]⟩
          ∧ abandonCmd projects store downR = ⟨0, [], [], [noActiveMsg], [.loadData]⟩)
      ∧ (∀ n, n ∈ store → lookupProj projects n = none →
          (rallyCmd projects store upR).exit ≠ 0
          ∧ skipMsg n ∈ (rallyCmd projects store upR).messages
          ∧ (abandonCmd projects store downR).exit ≠ 0) := by
  intro projects store upR downR
  by_cases hstore : store.isEmpty
  · have hnil : store = [] := by
      cases store with
      | nil => rfl
      | cons a l => simp [List.isEmpty] at hstore
    subst hnil
    refine ⟨rfl, rfl, rfl, rfl, fun _ => ⟨rfl, rfl⟩, ?_⟩
    intro n hn
    cases hn
  · have hne : store ≠ [] := by
      intro h
      subst h
      simp [List.isEmpty] at hstore
    have hr : rallyCmd projects store upR =
        ⟨firstNonZero (store.map (perResult projects upR)), store,
         store.filter (presentIn projects),
         (store.filter (fun n => !(presentIn projects n))).map skipMsg, [.loadData]⟩ := by
      simp only [rallyCmd, if_neg hstore]
      rw [rallyLoop_spec]
      simp [pyOr]
    have hab : abandonCmd projects store downR =
        ⟨firstNonZero (store.map (perResult projects downR)), store,
         store.filter (presentIn projects),
         (store.filter (fun n => !(presentIn projects n))).map skipMsg, [.loadData]⟩ := by
      simp only [abandonCmd, if_neg hstore]
      rw [rallyLoop_spec]
      simp [pyOr]
    refine ⟨by rw [hr], by rw [hab], by rw [hr], by rw [hab], fun h => absurd h hne, ?_⟩
    intro n hn hl
    have hpres : presentIn projects n = false := by simp [presentIn, hl]
    have hperUp : perResult projects upR n = 1 := by simp [perResult, hpres]
    have hperDown : perResult projects downR n = 1 := by simp [perResult, hpres]
    refine ⟨?_, ?_, ?_⟩
    · rw [hr]
      exact firstNonZero_ne_zero _ 1 (hperUp ▸ List.mem_map_of_mem _ hn) one_ne_zero
    · rw [hr]
      exact List.mem_map_of_mem skipMsg (List.mem_filter.mpr ⟨hn, by simp [hpres]⟩)
    · rw [hab]
      exact firstNonZero_ne_zero _ 1 (hperDown ▸ List.mem_map_of_mem _ hn) one_ne_zero

/-- Witness for C1: active-set `["x", "y"]` with only `y` discovered (the
spec's own example): the skip for `x` forces exit 1, `y` is still invoked. -/
theorem c1_witness :
    "x" ∈ (["x", "y"] : List String)
    ∧ lookupProj [("y", "y/compose.yaml")] "x" = none
    ∧ (rallyCmd [("y", "y/compose.yaml")] ["x", "y"] (fun _ => 0)).exit ≠ 0
    ∧ skipMsg "x" ∈ (rallyCmd [("y", "y/compose.yaml")] ["x", "y"] (fun _ => 0)).messages
    ∧ (abandonCmd [("y", "y/compose.yaml")] ["x", "y"] (fun _ => 0)).exit ≠ 0 := by
  have h := (c1_rally_abandon_exit_codes [("y", "y/compose.yaml")] ["x", "y"]
    (fun _ => 0) (fun _ => 0)).2.2.2.2.2 "x" (by decide) (by decide)
  exact ⟨by decide, by decide, h.1, h.2.1, h.2.2⟩

/-- Claim C9: `start`, `stop` and `restart` on a project name absent from
discovery print "No such project: name", exit with code 2, perform no
compose invocation, and leave the persisted active-set untouched. -/
theorem c9_no_such_project :
    ∀ (project : String) (projects : List (String × String))
      (upR downR restartR : String → Int) (store : List String),
      lookupProj projects project = none →
        startCmd project projects upR store
            = ⟨2, store, [], ["No such project: " ++ project], []⟩
        ∧ stopCmd project projects downR store
            = ⟨2, store, [], ["No such project: " ++ project], []⟩
        ∧ restartCmd project projects restartR store
            = ⟨2, store, [], ["No such project: " ++ project], []⟩ := by
  intro project projects upR downR restartR store hl
  refine ⟨?_, ?_, ?_⟩ <;> simp [startCmd, stopCmd, restartCmd, hl]

/-- Witness for C9: `start unknownproj` against a root that only contains
`calibre`. -/
theorem c9_witness :
    lookupProj [("calibre", "calibre/compose.yaml")] "unknownproj" = none
    ∧ startCmd "unknownproj" [("calibre", "calibre/compose.yaml")] (fun _ => 0) ["a"]
        = ⟨2, ["a"], [], ["No such project: " ++ "unknownproj"], []⟩
    ∧ stopCmd "unknownproj" [("calibre", "calibre/compose.yaml")] (fun _ => 0) ["a"]
        = ⟨2, ["a"], [], ["No such project: " ++ "unknownproj"], []⟩
    ∧ restartCmd "unknownproj" [("calibre", "calibre/compose.yaml")] (fun _ => 0) ["a"]
        = ⟨2, ["a"], [], ["No such project: " ++ "unknownproj"], []⟩ := by
  have h := c9_no_such_project "unknownproj" [("calibre", "calibre/compose.yaml")]
    (fun _ => 0) (fun _ => 0) (fun _ => 0) ["a"] (by decide)
  exact ⟨by decide, h.1, h.2.1, h.2.2⟩

/-- Claim C10 (amended): when discovery yields no projects, `manage` prints
the notice, exits 1, shows no prompt and writes nothing — but it *does* load
(read) the persisted data record before the check, which the original claim
denied. -/
theorem c10_manage_empty_discovery :
    ∀ (folder : String) (store : List String) (answer : Option (List String)),
      manageCmd folder [] store answer
          = ⟨1, store, [], ["No projects found in " ++ folder ++ "."], [.loadData]⟩
      ∧ CmdEvent.prompt ∉ (manageCmd folder [] store answer).trace
      ∧ (∀ xs, CmdEvent.saveData xs ∉ (manageCmd folder [] store answer).trace) := by
  intro folder store answer
  have h : manageCmd folder [] store answer
      = ⟨1, store, [], ["No projects found in " ++ folder ++ "."], [.loadData]⟩ := rfl
  refine ⟨h, ?_, ?_⟩
  · rw [h]
    simp
  · intro xs
    rw [h]
    simp

/-- Counterexample for C10 as stated: with empty discovery, `manage` exits 1
but its event trace contains a load of the persisted data record
(`CaptainData.load()` runs before the empty check), contradicting "without
reading from the persisted active-project list". -/
theorem c10_counterexample :
    (manageCmd "/deployments" [] ["x"] none).exit = 1
    ∧ CmdEvent.loadData ∈ (manageCmd "/deployments" [] ["x"] none).trace := by
  exact ⟨rfl, by decide⟩

/-- Claim C2: for every root (with distinct child basenames, a filesystem
invariant), `discover_projects` returns exactly the immediate subdirectories
containing a recognized compose filename, in lexicographically sorted order,
each mapped to the first match in the fixed precedence order; non-directory
children and directories without a recognized file are excluded; and a
nonexistent root yields an empty mapping. -/
theorem c2_discover_projects :
    ∀ fs : FS, (fs.entries.map DirEntry.name).Nodup →
      discover_projects fs = discoverSpec fs
      ∧ (fs.rootExists = false → discover_projects fs = [])
      ∧ List.Sorted strLe ((discover_projects fs).map Prod.fst)
      ∧ (∀ e : DirEntry, COMPOSE_FILENAMES.find? e.hasComposeFile =
          (if e.hasComposeFile "compose.yaml" then some "compose.yaml"
           else if e.hasComposeFile "compose.yml" then some "compose.yml"
           else if e.hasComposeFile "docker-compose.yaml" then some "docker-compose.yaml"
           else if e.hasComposeFile "docker-compose.yml" then some "docker-compose.yml"
           else none)) := by
  intro fs hnd
  have hperm : List.Perm (sortEntries fs.entries) fs.entries :=
    List.perm_insertionSort entryLe fs.entries
  have hnds : ((sortEntries fs.entries).map DirEntry.name).Nodup :=
    ((hperm.map DirEntry.name).nodup_iff).mpr hnd
  have heq : discover_projects fs = discoverSpec fs := by
    by_cases hroot : fs.rootExists
    · simp only [discover_projects, discoverSpec, if_pos hroot]
      rw [discoverLoop_eq _ [] (by simp) hnds]
      simp
    · simp [discover_projects, discoverSpec, hroot]
  refine ⟨heq, ?_, ?_, ?_⟩
  · intro hroot
    simp [discover_projects, hroot]
  · rw [heq]
    exact sorted_discoverSpec_names fs
  · intro e
    cases h1 : e.hasComposeFile "compose.yaml" <;>
      cases h2 : e.hasComposeFile "compose.yml" <;>
      cases h3 : e.hasComposeFile "docker-compose.yaml" <;>
      cases h4 : e.hasComposeFile "docker-compose.yml" <;>
      simp [COMPOSE_FILENAMES, List.find?, h1, h2, h3, h4]

/-- A concrete root for the C2 witness — the spec's own example: `a` holds
`compose.yaml`, `b` holds `docker-compose.yml`, `c` holds no compose file,
`z.txt` is not a directory; listed out of order to exercise the sort. -/
def fsExampleC2 : FS :=
  ⟨true,
   [⟨"c", true, fun _ => false⟩,
    ⟨"b", true, fun s => s == "docker-compose.yml"⟩,
    ⟨"z.txt", false, fun s => s == "compose.yaml"⟩,
    ⟨"a", true, fun s => s == "compose.yaml"⟩]⟩

/-- Witness for C2: on the example root, discovery equals the spec mapping
`{a: a/compose.yaml, b: b/docker-compose.yml}` with `c` and `z.txt`
excluded. -/
theorem c2_witness :
    (fsExampleC2.entries.map DirEntry.name).Nodup
    ∧ discover_projects fsExampleC2 = discoverSpec fsExampleC2
    ∧ discover_projects fsExampleC2
        = [("a", "a/compose.yaml"), ("b", "b/docker-compose.yml")] := by
  refine ⟨by decide, (c2_discover_projects fsExampleC2 (by decide)).1, by decide⟩

/-- Claim C7: the persisted active-set is replaced only by `manage`: a
confirmed selection (drawn from the distinct discovered names, hence
duplicate-free) is stored as its sorted, deduplicated version and a save is
recorded; cancellation changes nothing and exits 0; and `list`, `start`,
`stop`, `restart`, `rally`, `abandon` all leave the persisted list
unchanged. -/
theorem c7_active_set_mutation :
    ∀ (folder : String) (projects : List (String × String)) (store sel running : List String)
      (p : String) (upR downR restartR : String → Int),
      (projects ≠ [] → sel.Nodup →
        (manageCmd folder projects store (some sel)).exit = 0
        ∧ (manageCmd folder projects store (some sel)).store = sortStrings sel
        ∧ List.Sorted strLe (sortStrings sel)
        ∧ (sortStrings sel).Nodup
        ∧ (∀ a, a ∈ sortStrings sel ↔ a ∈ sel)
        ∧ CmdEvent.saveData (sortStrings sel) ∈ (manageCmd folder projects store (some sel)).trace)
      ∧ (projects ≠ [] →
          manageCmd folder projects store none
            = ⟨0, store, [], ["Aborted (no changes made)."], [.loadData, .prompt]⟩)
      ∧ (listCmd projects store running).store = store
      ∧ (startCmd p projects upR store).store = store
      ∧ (stopCmd p projects downR store).store = store
      ∧ (restartCmd p projects restartR store).store = store
      ∧ (rallyCmd projects store upR).store = store
      ∧ (abandonCmd projects store downR).store = store := by
  intro folder projects store sel running p upR downR restartR
  have hnames : projects ≠ [] →
      (sortStrings (projects.map (fun q => q.1))).isEmpty = false := by
    intro hproj
    cases hsort : sortStrings (projects.map (fun q => q.1)) with
    | cons a l => rfl
    | nil =>
      exfalso
      have hp : List.Perm (sortStrings (projects.map (fun q => q.1)))
          (projects.map (fun q => q.1)) := List.perm_insertionSort strLe _
      rw [hsort] at hp
      exact hproj (List.map_eq_nil_iff.mp (List.Perm.symm hp).eq_nil)
  refine ⟨?_, ?_, rfl, ?_, ?_, ?_, ?_, ?_⟩
  · intro hproj hsel
    have hm : manageCmd folder projects store (some sel)
        = ⟨0, sortStrings sel, [],
           ["Saved " ++ toString (sortStrings sel).length ++ " active project(s)."],
           [.loadData, .prompt, .saveData (sortStrings sel)]⟩ := by
      simp only [manageCmd]
      rw [if_neg (by simp [hnames hproj])]
    refine ⟨by rw [hm], by rw [hm], List.sorted_insertionSort strLe sel,
      (List.perm_insertionSort strLe sel).nodup_iff.mpr hsel,
      fun a => (List.perm_insertionSort strLe sel).mem_iff, ?_⟩
    rw [hm]
    simp
  · intro hproj
    simp only [manageCmd]
    rw [if_neg (by simp [hnames hproj])]
  · cases hl : lookupProj projects p <;> simp [startCmd, hl]
  · cases hl : lookupProj projects p <;> simp [stopCmd, hl]
  · cases hl : lookupProj projects p <;> simp [restartCmd, hl]
  · by_cases hs : store.isEmpty <;> simp [rallyCmd, hs]
  · by_cases hs : store.isEmpty <;> simp [abandonCmd, hs]

/-- Witness for C7: confirming the selection `["b", "a"]` (distinct names)
over a non-empty discovery stores `["a", "b"]` and records the save. -/
theorem c7_witness :
    ([("a", "a/compose.yaml"), ("b", "b/compose.yaml")] : List (String × String)) ≠ []
    ∧ (["b", "a"] : List String).Nodup
    ∧ (manageCmd "/d" [("a", "a/compose.yaml"), ("b", "b/compose.yaml")] ["z"] (some ["b", "a"])).exit = 0
    ∧ (manageCmd "/d" [("a", "a/compose.yaml"), ("b", "b/compose.yaml")] ["z"] (some ["b", "a"])).store
        = sortStrings ["b", "a"]
    ∧ sortStrings ["b", "a"] = ["a", "b"]
    ∧ CmdEvent.saveData (sortStrings ["b", "a"])
        ∈ (manageCmd "/d" [("a", "a/compose.yaml"), ("b", "b/compose.yaml")] ["z"] (some ["b", "a"])).trace := by
  have h := (c7_active_set_mutation "/d" [("a", "a/compose.yaml"), ("b", "b/compose.yaml")]
    ["z"] ["b", "a"] [] "p" (fun _ => 0) (fun _ => 0) (fun _ => 0)).1
    (by decide) (by decide)
  exact ⟨by decide, by decide, h.1, h.2.1, by decide, h.2.2.2.2.2⟩

/-- Looking up a key survives filtering by a predicate that keeps every
entry with that key. -/
theorem lookup_filter_eq (k : String) (P : String × PyTerm → Bool)
    (hP : ∀ kv : String × PyTerm, kv.1 = k → P kv = true) :
    ∀ m : List (String × PyTerm), List.lookup k (m.filter P) = List.lookup k m := by
  intro m
  induction m with
  | nil => rfl
  | cons kv rest ih =>
    obtain ⟨a, b⟩ := kv
    have hcons : ∀ l : List (String × PyTerm),
        List.lookup k ((a, b) :: l) = if k == a then some b else List.lookup k l := by
      intro l
      rcases h : k == a <;> simp [List.lookup, h]
    by_cases hk : a = k
    · have hkb : (k == a) = true := by simp [hk]
      have hPkv : P (a, b) = true := hP (a, b) hk
      rw [List.filter_cons_of_pos hPkv, hcons, hcons, if_pos hkb, if_pos hkb]
    · have hkb : (k == a) = false := by
        simp only [beq_eq_false_iff_ne, ne_eq]
        exact fun h => hk h.symm
      cases hPv : P (a, b) with
      | true =>
        rw [List.filter_cons_of_pos hPv, hcons, hcons, if_neg (by simp [hkb]),
          if_neg (by simp [hkb]), ih]
      | false =>
        rw [List.filter_cons_of_neg (by simp [hPv]), ih, hcons, if_neg (by simp [hkb])]

theorem pyDictGet_filter (k : String) (P : String × PyTerm → Bool)
    (hP : ∀ kv : String × PyTerm, kv.1 = k → P kv = true) (m : List (String × PyTerm)) :
    pyDictGet k (m.filter P) = pyDictGet k m := by
  unfold pyDictGet
  rw [← List.filter_reverse]
  exact lookup_filter_eq k P hP m.reverse

/-- Unfolded behaviour of `loadConfig` on a parsed mapping: recognized
fields are taken from the file (the filter drops nothing relevant), missing
ones fall back to their defaults, unknown keys have no effect. -/
theorem loadConfig_mapping (m : List (String × PyTerm)) :
    loadConfig (.parsed (.mapping m)) =
      .ok { theme := (pyDictGet "theme" m).getD (.scalar (.strS "light")),
            auto_update := (pyDictGet "auto_update" m).getD (.scalar (.boolS true)),
            recent_files := (pyDictGet "recent_files" m).getD (.listT []) } := by
  cases m with
  | nil => rfl
  | cons kv rest =>
    have hth := pyDictGet_filter "theme" isConfigField
      (fun kv hkv => by simp [isConfigField, hkv, configFieldNames]) (kv :: rest)
    have hau := pyDictGet_filter "auto_update" isConfigField
      (fun kv hkv => by simp [isConfigField, hkv, configFieldNames]) (kv :: rest)
    have hre := pyDictGet_filter "recent_files" isConfigField
      (fun kv hkv => by simp [isConfigField, hkv, configFieldNames]) (kv :: rest)
    have hdef : loadConfig (.parsed (.mapping (kv :: rest)))
        = .ok { theme := (pyDictGet "theme" ((kv :: rest).filter isConfigField)).getD (.scalar (.strS "light")),
                auto_update := (pyDictGet "auto_update" ((kv :: rest).filter isConfigField)).getD (.scalar (.boolS true)),
                recent_files := (pyDictGet "recent_files" ((kv :: rest).filter isConfigField)).getD (.listT []) } := rfl
    rw [hdef, hth, hau, hre]

/-- Unfolded behaviour of `loadData` on a parsed mapping. -/
theorem loadData_mapping (m : List (String × PyTerm)) :
    loadData (.parsed (.mapping m)) =
      .ok { active_projects := (pyDictGet "active_projects" m).getD (.listT []) } := by
  cases m with
  | nil => rfl
  | cons kv rest =>
    have hac := pyDictGet_filter "active_projects" isDataField
      (fun kv hkv => by simp [isDataField, hkv, dataFieldNames]) (kv :: rest)
    have hdef : loadData (.parsed (.mapping (kv :: rest)))
        = .ok { active_projects := (pyDictGet "active_projects" ((kv :: rest).filter isDataField)).getD (.listT []) } := rfl
    rw [hdef, hac]

/-- Claim C4 (amended): save-then-load round-trips exactly for records whose
field values `yaml.safe_dump` can represent — any theme string, auto-update
flag, active-projects list of strings, and a path-free recent-files list.
When `recent_files` holds `pathlib.Path` objects (its declared element
type), `safe_dump` raises RepresenterError; `save` catches it with a warning
after the open-for-write truncated the file, and a later `load` of the now
empty file returns the default record instead of the original. -/
theorem c4_save_load_roundtrip :
    (∀ c : CaptainConfig, representableDoc (asdictConfig c) = true →
      loadConfig (saveConfig c) = .ok c)
    ∧ (∀ d : CaptainData, representableDoc (asdictData d) = true →
      loadData (saveData d) = .ok d)
    ∧ (∀ c : CaptainConfig, representableDoc (asdictConfig c) = false →
      loadConfig (saveConfig c) = .ok {}) := by
  refine ⟨?_, ?_, ?_⟩
  · intro c hrep
    have hsave : saveConfig c = .parsed (asdictConfig c) := by
      simp [saveConfig, saveFile, hrep]
    rw [hsave]
    show loadConfig (.parsed (.mapping
      [("theme", c.theme), ("auto_update", c.auto_update), ("recent_files", c.recent_files)])) = .ok c
    rfl
  · intro d hrep
    have hsave : saveData d = .parsed (asdictData d) := by
      simp [saveData, saveFile, hrep]
    rw [hsave]
    show loadData (.parsed (.mapping [("active_projects", d.active_projects)])) = .ok d
    rfl
  · intro c hrep
    have hsave : saveConfig c = .parsed (.term (.scalar .nullS)) := by
      simp [saveConfig, saveFile, hrep]
    rw [hsave]
    rfl

/-- Witness for C4: a representable record round-trips; the record whose
recent-files list holds a Path comes back as the default record. -/
theorem c4_witness :
    representableDoc (asdictConfig ⟨.scalar (.strS "dark"), .scalar (.boolS false), .listT [.strS "f1"]⟩) = true
    ∧ loadConfig (saveConfig ⟨.scalar (.strS "dark"), .scalar (.boolS false), .listT [.strS "f1"]⟩)
        = .ok ⟨.scalar (.strS "dark"), .scalar (.boolS false), .listT [.strS "f1"]⟩
    ∧ representableDoc (asdictData ⟨.listT [.strS "proj1", .strS "proj2"]⟩) = true
    ∧ loadData (saveData ⟨.listT [.strS "proj1", .strS "proj2"]⟩)
        = .ok ⟨.listT [.strS "proj1", .strS "proj2"]⟩
    ∧ representableDoc (asdictConfig ⟨.scalar (.strS "light"), .scalar (.boolS true), .listT [.pathS "/r"]⟩) = false
    ∧ loadConfig (saveConfig ⟨.scalar (.strS "light"), .scalar (.boolS true), .listT [.pathS "/r"]⟩)
        = .ok {} := by
  exact ⟨by decide,
    c4_save_load_roundtrip.1 ⟨.scalar (.strS "dark"), .scalar (.boolS false), .listT [.strS "f1"]⟩ (by decide),
    by decide,
    c4_save_load_roundtrip.2.1 ⟨.listT [.strS "proj1", .strS "proj2"]⟩ (by decide),
    by decide,
    c4_save_load_roundtrip.2.2 ⟨.scalar (.strS "light"), .scalar (.boolS true), .listT [.pathS "/r"]⟩ (by decide)⟩

/-- Counterexample for C4 as stated: a record whose recent-files list holds
one Path — a valid value of the declared field type `List[Path]` — does not
survive save-then-load: it comes back as the default record. -/
theorem c4_counterexample :
    loadConfig (saveConfig ⟨.scalar (.strS "light"), .scalar (.boolS true), .listT [.pathS "/tmp/a"]⟩)
        = .ok ⟨.scalar (.strS "light"), .scalar (.boolS true), .listT []⟩
    ∧ (⟨.scalar (.strS "light"), .scalar (.boolS true), .listT []⟩ : CaptainConfig)
        ≠ ⟨.scalar (.strS "light"), .scalar (.boolS true), .listT [.pathS "/tmp/a"]⟩ := by
  exact ⟨rfl, by decide⟩

/-- Claim C5 (amended): `load` on a missing file returns the defaults; on an
unreadable or YAML-unparsable file it warns and returns the defaults; on a
parsed mapping it takes the recognized fields, silently drops unknown keys
and defaults missing ones; on a parsed falsy non-mapping (null/empty/false)
the `or {}` fallback yields the defaults; but on a parsed *truthy*
non-mapping document (e.g. a YAML list or plain string) `data.items()`
raises AttributeError past the call — the original claim's "never raises"
does not hold there. -/
theorem c5_load_behaviour :
    loadConfig .missing = .ok {}
    ∧ loadConfig .unreadable = .ok {}
    ∧ (∀ m : List (String × PyTerm),
        loadConfig (.parsed (.mapping m))
          = .ok { theme := (pyDictGet "theme" m).getD (.scalar (.strS "light")),
                  auto_update := (pyDictGet "auto_update" m).getD (.scalar (.boolS true)),
                  recent_files := (pyDictGet "recent_files" m).getD (.listT []) })
    ∧ (∀ d : PyDoc, pyTruthy d = false → loadConfig (.parsed d) = .ok {})
    ∧ (∀ t : PyTerm, pyTruthy (.term t) = true →
        loadConfig (.parsed (.term t)) = .error (.attributeError "items")) := by
  refine ⟨rfl, rfl, loadConfig_mapping, ?_, ?_⟩
  · intro d hfalse
    cases d with
    | term t =>
      simp only [loadConfig, hfalse]
      rfl
    | mapping m =>
      rcases m with _ | ⟨kv, rest⟩
      · rfl
      · exact absurd hfalse (by simp [pyTruthy])
  · intro t htrue
    simp [loadConfig, htrue]

/-- Witness for C5: a mapping with one recognized and one unknown key keeps
the recognized value and drops the unknown one; a falsy non-mapping file
(`false`) falls back to the defaults; a truthy non-mapping file (a plain
string) raises. -/
theorem c5_witness :
    loadConfig (.parsed (.mapping [("theme", .scalar (.strS "dark")), ("junk", .scalar .nullS)]))
        = .ok { theme := (pyDictGet "theme" [("theme", .scalar (.strS "dark")), ("junk", .scalar .nullS)]).getD (.scalar (.strS "light")),
                auto_update := (pyDictGet "auto_update" [("theme", .scalar (.strS "dark")), ("junk", .scalar .nullS)]).getD (.scalar (.boolS true)),
                recent_files := (pyDictGet "recent_files" [("theme", .scalar (.strS "dark")), ("junk", .scalar .nullS)]).getD (.listT []) }
    ∧ pyDictGet "theme" [("theme", .scalar (.strS "dark")), ("junk", .scalar .nullS)] = some (.scalar (.strS "dark"))
    ∧ pyTruthy (.term (.scalar (.boolS false))) = false
    ∧ loadConfig (.parsed (.term (.scalar (.boolS false)))) = .ok {}
    ∧ pyTruthy (.term (.scalar (.strS "x"))) = true
    ∧ loadConfig (.parsed (.term (.scalar (.strS "x")))) = .error (.attributeError "items") := by
  exact ⟨c5_load_behaviour.2.2.1 [("theme", .scalar (.strS "dark")), ("junk", .scalar .nullS)],
    by decide,
    by decide,
    c5_load_behaviour.2.2.2.1 (.term (.scalar (.boolS false))) (by decide),
    by decide,
    c5_load_behaviour.2.2.2.2 (.scalar (.strS "x")) (by decide)⟩

/-- Counterexample for C5 as stated: a file whose YAML content is the
non-empty list `["a"]` parses fine as YAML but cannot populate the record;
`load` raises AttributeError (`data.items()` on a list) past the call,
contradicting "never raising an exception past the call". -/
theorem c5_counterexample :
    loadConfig (.parsed (.term (.listT [.strS "a"]))) = .error (.attributeError "items") := by
  rfl

/-- On a loop run that raises nothing, the collected names are exactly the
filter the code applies: non-empty name, status (empty when absent) starting
with "running" after lowercasing. -/
theorem collectRunning_ok :
    ∀ (items : List LsItem) (l : List String),
      collectRunning items = .ok l → l = items.filterMap pickRunning := by
  intro items
  induction items with
  | nil =>
    intro l h
    simp only [collectRunning] at h
    cases h
    rfl
  | cons i rest ih =>
    intro l h
    rcases hn : i.name with _ | jv
    · simp only [collectRunning, hn] at h
      simp only [List.filterMap_cons, pickRunning, hn]
      exact ih l h
    · cases jv with
      | null =>
        simp only [collectRunning, hn] at h
        simp only [List.filterMap_cons, pickRunning, hn]
        exact ih l h
      | str s =>
        by_cases hs : s == ""
        · simp only [collectRunning, hn, if_pos hs] at h
          simp only [List.filterMap_cons, pickRunning, hn, if_pos hs]
          exact ih l h
        · rcases hst : i.status with _ | jv2
          · simp only [collectRunning, hn, if_neg hs, hst] at h
            rw [if_neg (by decide : ¬ pyStartsWith (pyLower "") "running" = true)] at h
            simp only [List.filterMap_cons, pickRunning, hn, if_neg hs, hst, statusOrEmpty]
            rw [if_neg (by decide : ¬ pyStartsWith (pyLower "") "running" = true)]
            exact ih l h
          · cases jv2 with
            | null =>
              simp only [collectRunning, hn, if_neg hs, hst] at h
              cases h
            | str t =>
              by_cases hr : pyStartsWith (pyLower t) "running"
              · simp only [collectRunning, hn, if_neg hs, hst, if_pos hr] at h
                cases hcr : collectRunning rest with
                | ok lr =>
                  rw [hcr] at h
                  simp only [Except.ok.injEq] at h
                  subst h
                  simp only [List.filterMap_cons, pickRunning, hn, if_neg hs, hst,
                    statusOrEmpty, if_pos hr]
                  rw [ih lr hcr]
                | error e =>
                  rw [hcr] at h
                  cases h
              · simp only [collectRunning, hn, if_neg hs, hst, if_neg hr] at h
                simp only [List.filterMap_cons, pickRunning, hn, if_neg hs, hst,
                  statusOrEmpty, if_neg hr]
                exact ih l h

/-- Claim C8 (amended): `get_running_projects` returns `[]` on a failed
query or parse, and `[]` when an item raises mid-loop (the warning path);
when the loop completes it returns exactly the items' names that are
non-empty strings and whose status string — empty when the key is absent —
starts with "running" case-insensitively.  The original claim omits the
non-empty-name condition enforced by `if name and ...`. -/
theorem c8_running_projects :
    get_running_projects (.error ()) = []
    ∧ (∀ (items : List LsItem) (l : List String), collectRunning items = .ok l →
        get_running_projects (.ok items) = items.filterMap pickRunning)
    ∧ (∀ items : List LsItem, collectRunning items = .error () →
        get_running_projects (.ok items) = []) := by
  refine ⟨rfl, ?_, ?_⟩
  · intro items l h
    simp only [get_running_projects, h]
    exact collectRunning_ok items l h
  · intro items h
    simp only [get_running_projects, h]

/-- Witness for C8: a response with a running project (mixed-case status), a
stopped one and an empty-named running one: only "proj" is returned. -/
theorem c8_witness :
    collectRunning [⟨some (.str "proj"), some (.str "Running(2)")⟩,
        ⟨some (.str ""), some (.str "running")⟩,
        ⟨some (.str "x"), some (.str "exited")⟩] = .ok ["proj"]
    ∧ get_running_projects (.ok [⟨some (.str "proj"), some (.str "Running(2)")⟩,
        ⟨some (.str ""), some (.str "running")⟩,
        ⟨some (.str "x"), some (.str "exited")⟩])
      = ([⟨some (.str "proj"), some (.str "Running(2)")⟩,
          ⟨some (.str ""), some (.str "running")⟩,
          ⟨some (.str "x"), some (.str "exited")⟩] : List LsItem).filterMap pickRunning := by
  refine ⟨rfl, ?_⟩
  exact c8_running_projects.2.1
    [⟨some (.str "proj"), some (.str "Running(2)")⟩,
     ⟨some (.str ""), some (.str "running")⟩,
     ⟨some (.str "x"), some (.str "exited")⟩] ["proj"] rfl

/-- Counterexample for C8 as stated: an item reporting name `""` and status
"running" — the name's status starts with "running", yet the code's
truthiness guard (`if name and ...`) drops it, so the result is not "exactly
the project names whose reported status string starts with running". -/
theorem c8_counterexample :
    get_running_projects (.ok [⟨some (.str ""), some (.str "running")⟩]) = []
    ∧ specReportedRunningNames [⟨some (.str ""), some (.str "running")⟩] = [""]
    ∧ ([] : List String) ≠ [""] := by
  exact ⟨by decide, by decide, by decide⟩

/-- Witness for C3: with the variable unset and any filesystem, startup
fails with the AttributeError rather than reaching the exit-code checks. -/
theorem c3_witness :
    startupExitDecision (fun _ => none) (fun _ => true)
      = .error (.attributeError "ENVIROMENT") :=
  c3_startup_attribute_error (fun _ => none) (fun _ => true)

/-- Witness for C6: a process completing with 137 propagates 137; a launch
failure yields 1. -/
theorem c6_witness :
    DockerCompose.up (.completed 137) = 137
    ∧ DockerCompose.down (.completed 0) = 0
    ∧ DockerCompose.restart .launchFailure = 1 :=
  ⟨(c6_runner_exit_codes 137).1, (c6_runner_exit_codes 0).2.1,
    (c6_runner_exit_codes 0).2.2.2.2.2⟩

/-- Witness for C10: concrete empty discovery with a non-empty stored
active-set. -/
theorem c10_witness :
    manageCmd "/d" [] ["s"] (some ["q"])
        = ⟨1, ["s"], [], ["No projects found in " ++ "/d" ++ "."], [.loadData]⟩
    ∧ CmdEvent.prompt ∉ (manageCmd "/d" [] ["s"] (some ["q"])).trace := by
  have h := c10_manage_empty_discovery "/d" ["s"] (some ["q"])
  exact ⟨h.1, h.2.1⟩
